import Mathlib

/-!
Verification of the connector routing and connection-point engine of the
smartchart repository (src/js/themes.js, connector section).

The JavaScript code is shallowly embedded: canvas coordinates become exact
rationals, SVG path strings become lists of path commands, and the canvas
(the set of obstacle shapes visible to collision testing) is passed as an
explicit argument wherever the source reads it from the global `canvas`
object.  Obstacle shapes are modelled through the rectangle branch of
`doesLineIntersectShapes`; the polygon branch normalises vertex offsets by a
Euclidean length, which has no exact rational counterpart, and no claim
below depends on it.
-/

namespace SmartChart

/-- A 2-D canvas point with exact rational coordinates. -/
structure Point where
  x : ℚ
  y : ℚ
deriving DecidableEq, Repr, Inhabited

/-- An axis-aligned bounding rectangle, as returned by `getBoundingRect(true)`. -/
structure Rect where
  left : ℚ
  top : ℚ
  width : ℚ
  height : ℚ
deriving DecidableEq, Repr, Inhabited

/-- One command of an SVG path string: `M x y`, `L x y` or `C c1 c2 p`. -/
inductive PathCmd where
  | move (p : Point)
  | line (p : Point)
  | curve (c1 c2 p : Point)
deriving DecidableEq, Repr

/-- The four base connection directions (`getBaseDirection` image). -/
inductive Dir where
  | top | bottom | left | right
deriving DecidableEq, Repr

/-- The full direction tags produced by `getDirectionFromPoint` and used as
keys of the twelve-entry connection-point map. -/
inductive ConnDir where
  | top | topLeft | topRight
  | bottom | bottomLeft | bottomRight
  | left | leftTop | leftBottom
  | right | rightTop | rightBottom
deriving DecidableEq, Repr

/-- `Connector.getDirectionFromPoint`: classify a normalized connection point
into a direction tag; `null` and interior points default to `right`. -/
def getDirectionFromPoint : Option Point → ConnDir
  | none => .right
  | some p =>
    if p.y = 0 then
      if p.x = 1/4 then .topLeft else if p.x = 3/4 then .topRight else .top
    else if p.y = 1 then
      if p.x = 1/4 then .bottomLeft else if p.x = 3/4 then .bottomRight else .bottom
    else if p.x = 0 then
      if p.y = 1/4 then .leftTop else if p.y = 3/4 then .leftBottom else .left
    else if p.x = 1 then
      if p.y = 1/4 then .rightTop else if p.y = 3/4 then .rightBottom else .right
    else .right

/-- `Connector.getBaseDirection`: strip the `-left`/`-right`/`-top`/`-bottom`
suffix (string `startsWith` tests, in source order). -/
def getBaseDirection : ConnDir → Dir
  | .top | .topLeft | .topRight => .top
  | .bottom | .bottomLeft | .bottomRight => .bottom
  | .left | .leftTop | .leftBottom => .left
  | .right | .rightTop | .rightBottom => .right

/-- `Connector.getFixedConnectionPoint`: resolve a normalized connection point
against the shape's bounding rectangle; `null` resolves to the center. -/
def getFixedConnectionPoint (bounds : Rect) : Option Point → Point
  | none =>
      ⟨bounds.left + bounds.width / 2, bounds.top + bounds.height / 2⟩
  | some point =>
      ⟨bounds.left + bounds.width * point.x, bounds.top + bounds.height * point.y⟩

/-- `Connector.lineSegmentsIntersect`: parametric segment-segment
intersection test with the `|denom| < 0.0001` parallel cutoff. -/
def lineSegmentsIntersect (x1 y1 x2 y2 x3 y3 x4 y4 : ℚ) : Bool :=
  let denom := (x1 - x2) * (y3 - y4) - (y1 - y2) * (x3 - x4)
  if |denom| < 1/10000 then false
  else
    let t := ((x1 - x3) * (y3 - y4) - (y1 - y3) * (x3 - x4)) / denom
    let u := -((x1 - x2) * (y1 - y3) - (y1 - y2) * (x1 - x3)) / denom
    decide (0 ≤ t) && decide (t ≤ 1) && decide (0 ≤ u) && decide (u ≤ 1)

/-- `Connector.lineIntersectsRect`: endpoint-inside test plus intersection
with each of the four rectangle edges. -/
def lineIntersectsRect (x1 y1 x2 y2 rectLeft rectTop rectRight rectBottom : ℚ) : Bool :=
  (decide (rectLeft ≤ x1) && decide (x1 ≤ rectRight) &&
     decide (rectTop ≤ y1) && decide (y1 ≤ rectBottom)) ||
  (decide (rectLeft ≤ x2) && decide (x2 ≤ rectRight) &&
     decide (rectTop ≤ y2) && decide (y2 ≤ rectBottom)) ||
  lineSegmentsIntersect x1 y1 x2 y2 rectLeft rectTop rectRight rectTop ||
  lineSegmentsIntersect x1 y1 x2 y2 rectRight rectTop rectRight rectBottom ||
  lineSegmentsIntersect x1 y1 x2 y2 rectLeft rectBottom rectRight rectBottom ||
  lineSegmentsIntersect x1 y1 x2 y2 rectLeft rectTop rectLeft rectBottom

/-- `Connector.doesLineIntersectShapes`: test a segment against every
obstacle rectangle expanded by the fixed 10-unit margin.  `obstacles` is the
list of id-carrying canvas shapes other than the connector's source shape
(the destination shape is included, as in the source). -/
def doesLineIntersectShapes (obstacles : List Rect) (x1 y1 x2 y2 : ℚ) : Bool :=
  obstacles.any fun bounds =>
    lineIntersectsRect x1 y1 x2 y2
      (bounds.left - 10) (bounds.top - 10)
      (bounds.left + bounds.width + 10) (bounds.top + bounds.height + 10)

/-- `Connector.parsePathSegments` / `parsePathSegmentsFromString`: collect the
coordinates of the `M` and `L` commands of a path (the regex `[ML]...` skips
`C` commands). -/
def parsePathSegments : List PathCmd → List Point
  | [] => []
  | .move p :: rest => p :: parsePathSegments rest
  | .line p :: rest => p :: parsePathSegments rest
  | .curve _ _ _ :: rest => parsePathSegments rest

/-- Collision loop shared by `routeAroundObstacles` and `pathHasCollisions`:
test each consecutive pair of parsed points. -/
def segmentsCollide (obstacles : List Rect) : List Point → Bool
  | p :: q :: rest =>
      doesLineIntersectShapes obstacles p.x p.y q.x q.y ||
        segmentsCollide obstacles (q :: rest)
  | _ => false

/-- `Connector.pathHasCollisions`. -/
def pathHasCollisions (obstacles : List Rect) (path : List PathCmd) : Bool :=
  segmentsCollide obstacles (parsePathSegments path)

/-- The ordered list of alternative polylines built by
`Connector.routeAroundObstacles` (lines 1679–1737): three offsets along the
start direction, then two lateral detours whose order depends on where the
end point lies.  Callers pass base directions, so `isSameSide` reduces to
direction equality. -/
def routeAlternatives (start end_ : Point) (fromDir toDir : Dir) : List (List PathCmd) :=
  let LARGE_OFFSET : ℚ := if fromDir = toDir then 100 else 50
  if fromDir = .top ∨ fromDir = .bottom then
    let offsetY : ℚ := if fromDir = .top then -LARGE_OFFSET else LARGE_OFFSET
    let alt1 := [PathCmd.move start, .line ⟨start.x, start.y + offsetY⟩,
                 .line ⟨end_.x, start.y + offsetY⟩, .line end_]
    let alt2 := [PathCmd.move start, .line ⟨start.x, start.y + offsetY * (3/2)⟩,
                 .line ⟨end_.x, start.y + offsetY * (3/2)⟩, .line end_]
    let alt3 := [PathCmd.move start, .line ⟨start.x, end_.y - offsetY⟩,
                 .line ⟨end_.x, end_.y - offsetY⟩, .line end_]
    let altR := [PathCmd.move start, .line ⟨start.x + 50, start.y⟩,
                 .line ⟨start.x + 50, end_.y⟩, .line end_]
    let altL := [PathCmd.move start, .line ⟨start.x - 50, start.y⟩,
                 .line ⟨start.x - 50, end_.y⟩, .line end_]
    if end_.x > start.x then [alt1, alt2, alt3, altR, altL]
    else [alt1, alt2, alt3, altL, altR]
  else
    let offsetX : ℚ := if fromDir = .left then -LARGE_OFFSET else LARGE_OFFSET
    let alt1 := [PathCmd.move start, .line ⟨start.x + offsetX, start.y⟩,
                 .line ⟨start.x + offsetX, end_.y⟩, .line end_]
    let alt2 := [PathCmd.move start, .line ⟨start.x + offsetX * (3/2), start.y⟩,
                 .line ⟨start.x + offsetX * (3/2), end_.y⟩, .line end_]
    let alt3 := [PathCmd.move start, .line ⟨end_.x - offsetX, start.y⟩,
                 .line ⟨end_.x - offsetX, end_.y⟩, .line end_]
    let altD := [PathCmd.move start, .line ⟨start.x, start.y + 50⟩,
                 .line ⟨end_.x, start.y + 50⟩, .line end_]
    let altU := [PathCmd.move start, .line ⟨start.x, start.y - 50⟩,
                 .line ⟨end_.x, start.y - 50⟩, .line end_]
    if end_.y > start.y then [alt1, alt2, alt3, altD, altU]
    else [alt1, alt2, alt3, altU, altD]

/-- The `for (const alt of alternatives)` loop of `routeAroundObstacles`:
return the first alternative without collisions, else the default path. -/
def firstCollisionFree (obstacles : List Rect) :
    List (List PathCmd) → List PathCmd → List PathCmd
  | [], defaultPath => defaultPath
  | alt :: rest, defaultPath =>
      if pathHasCollisions obstacles alt then firstCollisionFree obstacles rest defaultPath
      else alt

/-- `Connector.routeAroundObstacles`: keep the default path when it is
collision-free, otherwise try the fixed alternatives in order. -/
def routeAroundObstacles (obstacles : List Rect) (start end_ : Point)
    (fromDir toDir : Dir) (defaultPath : List PathCmd) : List PathCmd :=
  if pathHasCollisions obstacles defaultPath then
    firstCollisionFree obstacles (routeAlternatives start end_ fromDir toDir) defaultPath
  else defaultPath

/-- The stub computation of `createOrthogonalPath` (applied to both
endpoints): extend the connection point outward by `STUB_LENGTH = 20`. -/
def stubPoint (p : Point) : Dir → Point
  | .top => ⟨p.x, p.y - 20⟩
  | .bottom => ⟨p.x, p.y + 20⟩
  | .left => ⟨p.x - 20, p.y⟩
  | .right => ⟨p.x + 20, p.y⟩

/-- The middle-path case analysis of `createOrthogonalPath`
(lines 1843–1953): alignment straightening, opposite/same-side pairs and
mixed directions, each routed through the obstacle avoider. -/
def orthMiddle (obstacles : List Rect) (start end_ startStub endStub : Point)
    (fromBaseDir toBaseDir : Dir) : List PathCmd :=
  let dx := end_.x - start.x
  let dy := end_.y - start.y
  let isVerticallyAligned := |dx| < 30
  let isHorizontallyAligned := |dy| < 30
  if isVerticallyAligned ∧
      ((fromBaseDir = .top ∧ toBaseDir = .bottom) ∨
       (fromBaseDir = .bottom ∧ toBaseDir = .top)) then
    let straightX := (start.x + end_.x) / 2
    routeAroundObstacles obstacles startStub endStub fromBaseDir toBaseDir
      [PathCmd.move startStub, .line ⟨straightX, startStub.y⟩,
       .line ⟨straightX, endStub.y⟩, .line endStub]
  else if isHorizontallyAligned ∧
      ((fromBaseDir = .left ∧ toBaseDir = .right) ∨
       (fromBaseDir = .right ∧ toBaseDir = .left)) then
    let straightY := (start.y + end_.y) / 2
    routeAroundObstacles obstacles startStub endStub fromBaseDir toBaseDir
      [PathCmd.move startStub, .line ⟨startStub.x, straightY⟩,
       .line ⟨endStub.x, straightY⟩, .line endStub]
  else if (fromBaseDir = .left ∨ fromBaseDir = .right) ∧
      (toBaseDir = .left ∨ toBaseDir = .right) then
    if fromBaseDir = toBaseDir then
      let simple1 := [PathCmd.move startStub, .line ⟨endStub.x, startStub.y⟩, .line endStub]
      let simple2 := [PathCmd.move startStub, .line ⟨startStub.x, endStub.y⟩, .line endStub]
      if ¬ pathHasCollisions obstacles simple1 then simple1
      else if ¬ pathHasCollisions obstacles simple2 then simple2
      else
        let midX := (startStub.x + endStub.x) / 2
        routeAroundObstacles obstacles startStub endStub fromBaseDir toBaseDir
          [PathCmd.move startStub, .line ⟨midX, startStub.y⟩,
           .line ⟨midX, endStub.y⟩, .line endStub]
    else
      let midX := (startStub.x + endStub.x) / 2
      routeAroundObstacles obstacles startStub endStub fromBaseDir toBaseDir
        [PathCmd.move startStub, .line ⟨midX, startStub.y⟩,
         .line ⟨midX, endStub.y⟩, .line endStub]
  else if (fromBaseDir = .top ∨ fromBaseDir = .bottom) ∧
      (toBaseDir = .top ∨ toBaseDir = .bottom) then
    if fromBaseDir = toBaseDir then
      let simple1 := [PathCmd.move startStub, .line ⟨startStub.x, endStub.y⟩, .line endStub]
      let simple2 := [PathCmd.move startStub, .line ⟨endStub.x, startStub.y⟩, .line endStub]
      if ¬ pathHasCollisions obstacles simple1 then simple1
      else if ¬ pathHasCollisions obstacles simple2 then simple2
      else
        let midY := (startStub.y + endStub.y) / 2
        routeAroundObstacles obstacles startStub endStub fromBaseDir toBaseDir
          [PathCmd.move startStub, .line ⟨startStub.x, midY⟩,
           .line ⟨endStub.x, midY⟩, .line endStub]
    else
      let midY := (startStub.y + endStub.y) / 2
      routeAroundObstacles obstacles startStub endStub fromBaseDir toBaseDir
        [PathCmd.move startStub, .line ⟨startStub.x, midY⟩,
         .line ⟨endStub.x, midY⟩, .line endStub]
  else if fromBaseDir = .right ∨ fromBaseDir = .left then
    routeAroundObstacles obstacles startStub endStub fromBaseDir toBaseDir
      [PathCmd.move startStub, .line ⟨endStub.x, startStub.y⟩, .line endStub]
  else
    routeAroundObstacles obstacles startStub endStub fromBaseDir toBaseDir
      [PathCmd.move startStub, .line ⟨startStub.x, endStub.y⟩, .line endStub]

/-- Arrow angle as the source computes it: either an exact degree constant
(orthogonal routing) or the symbolic `Math.atan2(dy, dx)` in degrees. -/
inductive ArrowAngle where
  | deg (q : ℚ)
  | atan2deg (dy dx : ℚ)
deriving DecidableEq, Repr

/-- The result of a path computation: the SVG command list plus the end
angle (`{pathString, endAngle}`). -/
structure PathData where
  cmds : List PathCmd
  endAngle : ArrowAngle
deriving DecidableEq, Repr

/-- `Connector.createOrthogonalPath`: stubs at both ends, routed middle path,
and the final assembly `M start L startStub <middle minus its move> L end`
(lines 1955–1958), with the arrow angle chosen from the incoming direction. -/
def createOrthogonalPath (obstacles : List Rect) (start end_ : Point)
    (fromPoint toPoint : Option Point) : PathData :=
  let fromBaseDir := getBaseDirection (getDirectionFromPoint fromPoint)
  let toBaseDir := getBaseDirection (getDirectionFromPoint toPoint)
  let startStub := stubPoint start fromBaseDir
  let endStub := stubPoint end_ toBaseDir
  let middlePath := orthMiddle obstacles start end_ startStub endStub fromBaseDir toBaseDir
  { cmds := PathCmd.move start :: PathCmd.line startStub ::
      (middlePath.drop 1 ++ [PathCmd.line end_]),
    endAngle := .deg (match toBaseDir with
      | .top => 90 | .right => 180 | .bottom => -90 | .left => 0) }

/-- `Connector.createCurvedPath`: one cubic segment; the end tangent has
`dy = 0`, so `Math.atan2` is kept symbolically. -/
def createCurvedPath (start end_ : Point) : PathData :=
  let dx := end_.x - start.x
  let cp1 : Point := ⟨start.x + dx * (1/2), start.y⟩
  let cp2 : Point := ⟨start.x + dx * (1/2), end_.y⟩
  { cmds := [PathCmd.move start, .curve cp1 cp2 end_],
    endAngle := .atan2deg (end_.y - cp2.y) (end_.x - cp2.x) }

/-- `CONNECTION_TYPE`. -/
inductive ConnectionType where
  | floating | fixed
deriving DecidableEq, Repr

/-- `ROUTING_STYLE`. -/
inductive RoutingStyle where
  | straight | orthogonal | curved
deriving DecidableEq, Repr

/-- A manual waypoint adjustment `{offsetX, offsetY}`. -/
structure Adjustment where
  offsetX : ℚ
  offsetY : ℚ
deriving DecidableEq, Repr

/-- JavaScript `a || b` for strings: the empty string is falsy. -/
def jsOrString (v : Option String) (d : String) : String :=
  match v with
  | some s => if s = "" then d else s
  | none => d

/-- JavaScript `a || b` for numbers: `0` is falsy. -/
def jsOrQ (v : Option ℚ) (d : ℚ) : ℚ :=
  match v with
  | some q => if q = 0 then d else q
  | none => d

/-- The state of a `Connector` instance.  The source stores references to its
two shape objects; the embedding stores their ids and receives their current
bounds as arguments wherever the source reads them.  `originalPath` is
`originalPathString` (the automatic path) and `pathCmds` is `path.path` (the
displayed path). -/
structure Connector where
  id : String
  fromShapeId : String
  toShapeId : String
  connectionType : ConnectionType
  routingStyle : RoutingStyle
  fromPoint : Option Point
  toPoint : Option Point
  strokeColor : String
  strokeWidth : ℚ
  arrowSize : ℚ
  waypoints : List Point
  lockedRoute : Option (List PathCmd)
  text : String
  waypointAdjustments : List (ℕ × Adjustment)
  originalPath : List PathCmd
  pathCmds : List PathCmd
deriving DecidableEq, Repr

/-- Either a concrete direction tag or the `'auto'` marker accepted by
`getFixedPointFromDirection`. -/
inductive DirSpec where
  | auto
  | dir (d : ConnDir)
deriving DecidableEq, Repr

/-- The `options` object taken by the `Connector` constructor and
`createConnector`; absent properties are `none`. -/
structure ConnectorOptions where
  routingStyle : Option RoutingStyle := none
  fromPoint : Option Point := none
  toPoint : Option Point := none
  fromDirection : Option DirSpec := none
  toDirection : Option DirSpec := none
  strokeColor : Option String := none
  strokeWidth : Option ℚ := none
  arrowSize : Option ℚ := none
  waypoints : Option (List Point) := none
  lockedRoute : Option (List PathCmd) := none
  text : Option String := none
  waypointAdjustments : Option (List (ℕ × Adjustment)) := none
deriving DecidableEq, Repr

/-- `Connector.calculatePath` for the FIXED connection type (the constructor
hardcodes `connectionType = FIXED`, so the floating branch is dead code):
resolve both fixed points and dispatch on the routing style. -/
def calculatePath (obstacles : List Rect) (fromBounds toBounds : Rect)
    (routingStyle : RoutingStyle) (fromPoint toPoint : Option Point) : PathData :=
  let startPoint := getFixedConnectionPoint fromBounds fromPoint
  let endPoint := getFixedConnectionPoint toBounds toPoint
  match routingStyle with
  | .orthogonal => createOrthogonalPath obstacles startPoint endPoint fromPoint toPoint
  | .curved => createCurvedPath startPoint endPoint
  | .straight =>
      { cmds := [PathCmd.move startPoint, .line endPoint],
        endAngle := .atan2deg (endPoint.y - startPoint.y) (endPoint.x - startPoint.x) }

/-- The `Connector` constructor (lines 1206–1245) followed by the path part
of `createVisuals`: fill every field from `options` with the source's `||`
defaults, always use FIXED connection points, then compute and store the
automatic path.  `freshId` stands for the `generateId()` call. -/
def mkConnector (obstacles : List Rect) (fromBounds toBounds : Rect)
    (freshId fromShapeId toShapeId : String) (o : ConnectorOptions) : Connector :=
  let c0 : Connector :=
    { id := freshId
      fromShapeId := fromShapeId
      toShapeId := toShapeId
      connectionType := .fixed
      routingStyle := o.routingStyle.getD .orthogonal
      fromPoint := o.fromPoint
      toPoint := o.toPoint
      strokeColor := jsOrString o.strokeColor "#5A6C7D"
      strokeWidth := jsOrQ o.strokeWidth (5/2)
      arrowSize := jsOrQ o.arrowSize 12
      waypoints := o.waypoints.getD []
      lockedRoute := o.lockedRoute
      text := jsOrString o.text ""
      waypointAdjustments := o.waypointAdjustments.getD []
      originalPath := []
      pathCmds := [] }
  let pd := calculatePath obstacles fromBounds toBounds c0.routingStyle c0.fromPoint c0.toPoint
  { c0 with originalPath := pd.cmds, pathCmds := pd.cmds }

/-- The serialized record produced by `Connector.toJSON`. -/
structure ConnRecord where
  id : String
  fromShapeId : String
  toShapeId : String
  connectionType : ConnectionType
  routingStyle : RoutingStyle
  fromPoint : Option Point
  toPoint : Option Point
  waypoints : List Point
  strokeColor : String
  strokeWidth : ℚ
  arrowSize : ℚ
  lockedRoute : Option (List PathCmd)
  text : String
  waypointAdjustments : List (ℕ × Adjustment)
deriving DecidableEq, Repr

/-- `Connector.toJSON` (lines 3012–3029). -/
def Connector.toJSON (c : Connector) : ConnRecord :=
  { id := c.id
    fromShapeId := c.fromShapeId
    toShapeId := c.toShapeId
    connectionType := c.connectionType
    routingStyle := c.routingStyle
    fromPoint := c.fromPoint
    toPoint := c.toPoint
    waypoints := c.waypoints
    strokeColor := c.strokeColor
    strokeWidth := c.strokeWidth
    arrowSize := c.arrowSize
    lockedRoute := c.lockedRoute
    text := jsOrString (some c.text) ""
    waypointAdjustments := c.waypointAdjustments }

/-- The waypoint-capture part of `Connector.updatePathFromWaypoint`
(lines 2219–2262): classify the original segment as horizontal or vertical
(1-unit tolerance) and record only the perpendicular offset of the dragged
waypoint from the original automatic path.  The source indexes
`originalSegments[segmentIndex]` directly; the dragged control always carries
a valid index, modelled by the `Option` result. -/
def classifySegmentOffset (originalSegments : List Point) (segmentIndex : ℕ)
    (waypointPos : Point) : Option Adjustment :=
  match originalSegments[segmentIndex]?, originalSegments[segmentIndex + 1]? with
  | some a, some b =>
      if |a.y - b.y| < 1 then some ⟨0, waypointPos.y - a.y⟩
      else if |a.x - b.x| < 1 then some ⟨waypointPos.x - a.x, 0⟩
      else none
  | _, _ => none

/-- See `classifySegmentOffset`: the capture applied to the stored original
path string. -/
def captureWaypointOffset (originalPath : List PathCmd) (segmentIndex : ℕ)
    (waypointPos : Point) : Option Adjustment :=
  classifySegmentOffset (parsePathSegments originalPath) segmentIndex waypointPos

/-- One iteration of the adjustment loop of
`Connector.applyWaypointAdjustments`: shift both endpoints of segment
`index` by the stored offset when the segment still exists and its
orientation matches. -/
def applyOneAdjustment (segs : List Point) (index : ℕ) (adjustment : Adjustment) :
    List Point :=
  if index < segs.length - 1 then
    let currentSeg := segs.getD index default
    let nextSeg := segs.getD (index + 1) default
    let isHorizontal := |currentSeg.y - nextSeg.y| < 1
    let isVertical := |currentSeg.x - nextSeg.x| < 1
    if isHorizontal ∧ adjustment.offsetY ≠ 0 then
      (segs.set index ⟨currentSeg.x, currentSeg.y + adjustment.offsetY⟩).set
        (index + 1) ⟨nextSeg.x, nextSeg.y + adjustment.offsetY⟩
    else if isVertical ∧ adjustment.offsetX ≠ 0 then
      (segs.set index ⟨currentSeg.x + adjustment.offsetX, currentSeg.y⟩).set
        (index + 1) ⟨nextSeg.x + adjustment.offsetX, nextSeg.y⟩
    else segs
  else segs

/-- Rebuild `M p0 L p1 ... L pn` from a segment list (the path-string
rebuild at the end of `applyWaypointAdjustments`). -/
def rebuildPath : List Point → List PathCmd
  | [] => []
  | p :: rest => PathCmd.move p :: rest.map PathCmd.line

/-- `Connector.applyWaypointAdjustments` (lines 2438–2472): parse the fresh
path, apply each stored adjustment in stored order (JavaScript enumerates
integer-like keys in ascending order, so the association list is kept
ascending), and rebuild the path. -/
def applyWaypointAdjustments (adjustments : List (ℕ × Adjustment))
    (pathString : List PathCmd) : List PathCmd :=
  let segments := parsePathSegments pathString
  let segments := adjustments.foldl (fun segs ia => applyOneAdjustment segs ia.1 ia.2) segments
  rebuildPath segments

/-- `Connector.update` (lines 2366–2433): the dynamic connection-point
switching call (`updateConnectionPoints`) is commented out in the source, so
the stored `fromPoint`/`toPoint` are reused as they are; the automatic path
is recomputed and stored waypoint adjustments are reapplied. -/
def Connector.update (obstacles : List Rect) (fromBounds toBounds : Rect)
    (c : Connector) : Connector :=
  let pd := calculatePath obstacles fromBounds toBounds c.routingStyle c.fromPoint c.toPoint
  let pathString :=
    if c.waypointAdjustments.length > 0 then applyWaypointAdjustments c.waypointAdjustments pd.cmds
    else pd.cmds
  { c with originalPath := pd.cmds, pathCmds := pathString }

/-- `Connector.directionToPoint`: the four plain sides as normalized
connection points. -/
def directionToPoint : Dir → Point
  | .top => ⟨1/2, 0⟩
  | .right => ⟨1, 1/2⟩
  | .bottom => ⟨1/2, 1⟩
  | .left => ⟨0, 1/2⟩

/-- The twelve-entry `pointMap` of
`ConnectorManager.getFixedPointFromDirection`. -/
def sidePointMap : ConnDir → Point
  | .topLeft => ⟨1/4, 0⟩
  | .top => ⟨1/2, 0⟩
  | .topRight => ⟨3/4, 0⟩
  | .rightTop => ⟨1, 1/4⟩
  | .right => ⟨1, 1/2⟩
  | .rightBottom => ⟨1, 3/4⟩
  | .bottomLeft => ⟨1/4, 1⟩
  | .bottom => ⟨1/2, 1⟩
  | .bottomRight => ⟨3/4, 1⟩
  | .leftTop => ⟨0, 1/4⟩
  | .left => ⟨0, 1/2⟩
  | .leftBottom => ⟨0, 3/4⟩

/-- A canvas shape as the connector engine sees it: its id, its bounding
rectangle (`getBoundingRect(true)` coincides with `left/top/width/height`
for these shapes), and the connector-reference arrays the manager installs
on it (stored as connector ids). -/
structure ShapeV where
  id : String
  left : ℚ
  top : ℚ
  width : ℚ
  height : ℚ
  outgoingConnectors : List String := []
  incomingConnectors : List String := []
deriving DecidableEq, Repr

/-- The bounding rectangle of a shape. -/
def boundsOf (s : ShapeV) : Rect :=
  ⟨s.left, s.top, s.width, s.height⟩

/-- The `'auto'` branch of `getFixedPointFromDirection`: among the four side
midpoints (iterated in insertion order top, right, bottom, left) pick the
one closest to the other shape's center.  The source compares
`Math.sqrt(d²)` values; square root is strictly monotone on nonnegatives, so
comparing squared distances selects the same direction.  `minDistance`
starts at `Infinity`, so the first candidate always replaces the initial
`'right'`. -/
def autoBestDirection (shape otherShape : ShapeV) : ConnDir :=
  let candidates : List (ConnDir × Point) :=
    [(.top, ⟨shape.left + shape.width / 2, shape.top⟩),
     (.right, ⟨shape.left + shape.width, shape.top + shape.height / 2⟩),
     (.bottom, ⟨shape.left + shape.width / 2, shape.top + shape.height⟩),
     (.left, ⟨shape.left, shape.top + shape.height / 2⟩)]
  let otherCenter : Point :=
    ⟨otherShape.left + otherShape.width / 2, otherShape.top + otherShape.height / 2⟩
  (candidates.foldl
    (fun (best : ConnDir × Option ℚ) dp =>
      let d2 := (dp.2.x - otherCenter.x) ^ 2 + (dp.2.y - otherCenter.y) ^ 2
      match best.2 with
      | none => (dp.1, some d2)
      | some m => if d2 < m then (dp.1, some d2) else best)
    (.right, none)).1

/-- `ConnectorManager.getFixedPointFromDirection` (lines 3046–3120). -/
def getFixedPointFromDirection (direction : DirSpec) (shape otherShape : ShapeV) : Point :=
  match direction with
  | .dir d => sidePointMap d
  | .auto => sidePointMap (autoBestDirection shape otherShape)

/-- The connector registry (`this.connectors`, a `Map` in insertion order). -/
structure ConnectorManager where
  connectors : List Connector
deriving DecidableEq, Repr

/-- `Map.set` on the registry: replace an entry with the same key in place,
else append. -/
def mapSetConnector (l : List Connector) (c : Connector) : List Connector :=
  if l.any (fun x => x.id = c.id) then
    l.map (fun x => if x.id = c.id then c else x)
  else l ++ [c]

/-- The fixed-point defaulting and construction steps of
`ConnectorManager.createConnector` once the guard has passed: fill a
missing `fromPoint`/`toPoint` from the (auto) direction, then run the
`Connector` constructor. -/
def createdConnector (obstacles : List Rect) (f t : ShapeV) (o : ConnectorOptions)
    (freshId : String) : Connector :=
  let o1 := if o.fromPoint.isNone then
      { o with fromPoint := some (getFixedPointFromDirection (o.fromDirection.getD .auto) f t) }
    else o
  let o2 := if o1.toPoint.isNone then
      { o1 with toPoint := some (getFixedPointFromDirection (o1.toDirection.getD .auto) t f) }
    else o1
  mkConnector obstacles (boundsOf f) (boundsOf t) freshId f.id t.id o2

/-- `ConnectorManager.createConnector` (lines 3125–3149): reject a missing or
self-referential endpoint, otherwise build the connector, register it, and
push its reference onto both shapes' connector arrays.  Shape object
identity (`===`) is modelled by the shape's unique generated id.  Returns
the source's return value together with the updated registry and shapes. -/
def createConnector (obstacles : List Rect) (mgr : ConnectorManager)
    (fromShape toShape : Option ShapeV) (o : ConnectorOptions) (freshId : String) :
    Option Connector × ConnectorManager × Option ShapeV × Option ShapeV :=
  match fromShape, toShape with
  | some f, some t =>
      if f.id = t.id then (none, mgr, some f, some t)
      else
        let c := createdConnector obstacles f t o freshId
        (some c, ⟨mapSetConnector mgr.connectors c⟩,
         some { f with outgoingConnectors := f.outgoingConnectors ++ [c.id] },
         some { t with incomingConnectors := t.incomingConnectors ++ [c.id] })
  | _, _ => (none, mgr, fromShape, toShape)

/-- `ConnectorManager.clearAll` (registry part). -/
def clearAll (_mgr : ConnectorManager) : ConnectorManager :=
  ⟨[]⟩

/-- The `shapeMap` lookup of `ConnectorManager.fromJSON`: shapes with a
falsy id are skipped and later entries overwrite earlier ones
(`Map.set`). -/
def shapeMapGet (shapes : List ShapeV) (id : String) : Option ShapeV :=
  shapes.foldl (fun acc s => if s.id ≠ "" ∧ s.id = id then some s else acc) none

/-- The options object `fromJSON` passes to `createConnector`: note that
neither `id`, `text` nor `lockedRoute` is forwarded. -/
def optionsFromRecord (r : ConnRecord) : ConnectorOptions :=
  { routingStyle := some r.routingStyle
    fromPoint := r.fromPoint
    toPoint := r.toPoint
    waypoints := some r.waypoints
    strokeColor := some r.strokeColor
    strokeWidth := some r.strokeWidth
    arrowSize := some r.arrowSize
    waypointAdjustments := some r.waypointAdjustments }

/-- The record loop of `ConnectorManager.fromJSON`: skip records whose
endpoint shapes are not in the map, otherwise create a connector.
`generateId()` is modelled by the supply `supply`, advanced once per
`Connector` construction (the constructor is the only caller). -/
def fromJSONLoop (obstacles : List Rect) (shapes : List ShapeV) (supply : ℕ → String) :
    ℕ → List ConnRecord → ConnectorManager → ConnectorManager
  | _, [], mgr => mgr
  | k, r :: rest, mgr =>
      match shapeMapGet shapes r.fromShapeId, shapeMapGet shapes r.toShapeId with
      | some f, some t =>
          let res := createConnector obstacles mgr (some f) (some t) (optionsFromRecord r) (supply k)
          match res.1 with
          | some _ => fromJSONLoop obstacles shapes supply (k + 1) rest res.2.1
          | none => fromJSONLoop obstacles shapes supply k rest res.2.1
      | _, _ => fromJSONLoop obstacles shapes supply k rest mgr

/-- `ConnectorManager.fromJSON` (lines 3968–3994): clear the registry, build
the shape map, then create one connector per resolvable record. -/
def fromJSON (obstacles : List Rect) (mgr : ConnectorManager) (data : List ConnRecord)
    (shapes : List ShapeV) (supply : ℕ → String) : ConnectorManager :=
  fromJSONLoop obstacles shapes supply 0 data (clearAll mgr)

/-- The connection-point formula inlined in `snapShapesToAlign`. -/
def snapConnPoint (bounds : ShapeV) (direction : ConnDir) : Point :=
  ⟨bounds.left + bounds.width *
      (if direction = .left then 0 else if direction = .right then 1 else 1/2),
   bounds.top + bounds.height *
      (if direction = .top then 0 else if direction = .bottom then 1 else 1/2)⟩

/-- `ConnectorManager.snapShapesToAlign` (lines 3366–3417): for a vertical
(top/bottom) pair translate `toShape` horizontally when the connection
points' x-offset is below the 30-unit tolerance; for a horizontal
(left/right) pair translate it vertically; otherwise leave both shapes
unchanged.  Only `toShape` is ever mutated. -/
def snapShapesToAlign (fromShape toShape : ShapeV)
    (fromDirection toDirection : ConnDir) : ShapeV × ShapeV :=
  let fromPoint := snapConnPoint fromShape fromDirection
  let toPoint := snapConnPoint toShape toDirection
  if (fromDirection = .top ∨ fromDirection = .bottom) ∧
      (toDirection = .top ∨ toDirection = .bottom) then
    if |fromPoint.x - toPoint.x| < 30 then
      (fromShape, { toShape with left := toShape.left + (fromPoint.x - toPoint.x) })
    else (fromShape, toShape)
  else if (fromDirection = .left ∨ fromDirection = .right) ∧
      (toDirection = .left ∨ toDirection = .right) then
    if |fromPoint.y - toPoint.y| < 30 then
      (fromShape, { toShape with top := toShape.top + (fromPoint.y - toPoint.y) })
    else (fromShape, toShape)
  else (fromShape, toShape)

/-! Geometric vocabulary used to state boundary claims about resolved
connection points. -/

/-- `p` lies on the closed segment from `a` to `b`. -/
def onSegment (p a b : Point) : Prop :=
  (b.x - a.x) * (p.y - a.y) = (b.y - a.y) * (p.x - a.x) ∧
  min a.x b.x ≤ p.x ∧ p.x ≤ max a.x b.x ∧
  min a.y b.y ≤ p.y ∧ p.y ≤ max a.y b.y

instance (p a b : Point) : Decidable (onSegment p a b) := by
  unfold onSegment; infer_instance

/-- The edge list of a closed polygon (each vertex paired with its cyclic
successor). -/
def polygonEdges (pts : List Point) : List (Point × Point) :=
  pts.zip (pts.drop 1 ++ pts.take 1)

/-- `p` lies on the boundary of the closed polygon with vertices `pts`. -/
def onPolygonBoundary (pts : List Point) (p : Point) : Prop :=
  ∃ e ∈ polygonEdges pts, onSegment p e.1 e.2

instance (pts : List Point) (p : Point) : Decidable (onPolygonBoundary pts p) := by
  unfold onPolygonBoundary; infer_instance

/-- `p` lies on the boundary of the axis-aligned rectangle `b`. -/
def onRectBoundary (b : Rect) (p : Point) : Prop :=
  ((p.x = b.left ∨ p.x = b.left + b.width) ∧ b.top ≤ p.y ∧ p.y ≤ b.top + b.height) ∨
  ((p.y = b.top ∨ p.y = b.top + b.height) ∧ b.left ≤ p.x ∧ p.x ≤ b.left + b.width)

/-- `p` lies on the ellipse inscribed in the bounding rectangle `b`
(denominator-free form of `((x-cx)/a)² + ((y-cy)/b')² = 1` with `a = w/2`,
`b' = h/2`). -/
def onEllipseBoundary (b : Rect) (p : Point) : Prop :=
  4 * b.height ^ 2 * (p.x - (b.left + b.width / 2)) ^ 2 +
    4 * b.width ^ 2 * (p.y - (b.top + b.height / 2)) ^ 2 =
  b.width ^ 2 * b.height ^ 2

/-- The diamond polygon of `createDiamond` (src/js/shapes.js), placed at the
bounding rectangle `b`: vertices at the four side midpoints. -/
def diamondPoints (b : Rect) : List Point :=
  [⟨b.left + b.width / 2, b.top⟩,
   ⟨b.left + b.width, b.top + b.height / 2⟩,
   ⟨b.left + b.width / 2, b.top + b.height⟩,
   ⟨b.left, b.top + b.height / 2⟩]

/-- The bounding-box side midpoint named by the claim. -/
def sideMidpoint (b : Rect) : Dir → Point
  | .top => ⟨b.left + b.width / 2, b.top⟩
  | .right => ⟨b.left + b.width, b.top + b.height / 2⟩
  | .bottom => ⟨b.left + b.width / 2, b.top + b.height⟩
  | .left => ⟨b.left, b.top + b.height / 2⟩

/-- The triangle of `createTriangle` (src/js/shapes.js): `fabric.Triangle`
is an isosceles triangle with apex at the top-center of its bounding
rectangle and base at the bottom. -/
def trianglePoints (b : Rect) : List Point :=
  [⟨b.left + b.width / 2, b.top⟩,
   ⟨b.left + b.width, b.top + b.height⟩,
   ⟨b.left, b.top + b.height⟩]

/-- A concrete registered connector used to exercise the serialization
round trip: right side of shape `a` to left side of shape `b`, labelled
`flow`. -/
def sampleConnector : Connector :=
  { id := "c1"
    fromShapeId := "a"
    toShapeId := "b"
    connectionType := .fixed
    routingStyle := .orthogonal
    fromPoint := some ⟨1, 1/2⟩
    toPoint := some ⟨0, 1/2⟩
    strokeColor := "#5A6C7D"
    strokeWidth := 5/2
    arrowSize := 12
    waypoints := []
    lockedRoute := none
    text := "flow"
    waypointAdjustments := []
    originalPath := []
    pathCmds := [] }

/-- The two shapes referenced by `sampleConnector`. -/
def sampleShapes : List ShapeV :=
  [⟨"a", 0, 0, 100, 100, [], []⟩, ⟨"b", 300, 0, 100, 100, [], []⟩]

/-- Characterization used by the deserialization claim: starting from an
empty registry, one connector per record whose two endpoint shapes resolve
in the shape map, built by `createConnector` in record order with successive
fresh ids. -/
def expectedDeserialized (obstacles : List Rect) (shapes : List ShapeV)
    (supply : ℕ → String) : ℕ → List ConnRecord → List Connector
  | _, [] => []
  | k, r :: rest =>
      match shapeMapGet shapes r.fromShapeId, shapeMapGet shapes r.toShapeId with
      | some f, some t =>
          ((createConnector obstacles ⟨[]⟩ (some f) (some t) (optionsFromRecord r)
              (supply k)).1).toList ++
            expectedDeserialized obstacles shapes supply (k + 1) rest
      | _, _ => expectedDeserialized obstacles shapes supply k rest

/-! Theorems -/

/-- `parsePathSegments` distributes over path concatenation. -/
theorem parsePathSegments_append (l1 l2 : List PathCmd) :
    parsePathSegments (l1 ++ l2) = parsePathSegments l1 ++ parsePathSegments l2 := by
  induction l1 with
  | nil => rfl
  | cons c rest ih => cases c <;> simp [parsePathSegments, ih]

/-- Endpoints of the assembled orthogonal path, for any middle path. -/
theorem parse_assembled_head_last (s st e : Point) (mid : List PathCmd) :
    (parsePathSegments (PathCmd.move s :: PathCmd.line st :: (mid ++ [PathCmd.line e]))).head?
        = some s ∧
    (parsePathSegments (PathCmd.move s :: PathCmd.line st :: (mid ++ [PathCmd.line e]))).getLast?
        = some e := by
  refine ⟨rfl, ?_⟩
  show (s :: st :: parsePathSegments (mid ++ [PathCmd.line e])).getLast? = some e
  rw [parsePathSegments_append]
  show (s :: st :: (parsePathSegments mid ++ [e])).getLast? = some e
  rw [show s :: st :: (parsePathSegments mid ++ [e])
        = (s :: st :: parsePathSegments mid) ++ [e] by simp]
  exact List.getLast?_concat _

/-- C1: for every pair of resolved endpoint coordinates and every pair of
connection directions (every pair of normalized connection points), the
polyline returned by the orthogonal router starts exactly at `start` and
ends exactly at `end`. -/
theorem orthogonal_path_endpoints (obstacles : List Rect) (start end_ : Point)
    (fromPoint toPoint : Option Point) :
    (parsePathSegments (createOrthogonalPath obstacles start end_ fromPoint toPoint).cmds).head?
        = some start ∧
    (parsePathSegments (createOrthogonalPath obstacles start end_ fromPoint toPoint).cmds).getLast?
        = some end_ := by
  exact parse_assembled_head_last start
    (stubPoint start (getBaseDirection (getDirectionFromPoint fromPoint))) end_
    ((orthMiddle obstacles start end_
        (stubPoint start (getBaseDirection (getDirectionFromPoint fromPoint)))
        (stubPoint end_ (getBaseDirection (getDirectionFromPoint toPoint)))
        (getBaseDirection (getDirectionFromPoint fromPoint))
        (getBaseDirection (getDirectionFromPoint toPoint))).drop 1)

end SmartChart

namespace SmartChart

/-- C2 counterexample: with shapes A = (0,0,100,100) and B = (300,10,100,100)
connected from A's right-side midpoint (resolved to (100,50)) to B's
left-side midpoint (resolved to (300,60)), the orthogonal route is NOT a
single straight horizontal segment between the two resolved midpoints: it
is a six-point polyline visiting three distinct y-levels (50, 55, 60). -/
theorem aligned_route_not_single_segment :
    parsePathSegments (createOrthogonalPath [⟨300, 10, 100, 100⟩]
        ⟨100, 50⟩ ⟨300, 60⟩ (some ⟨1, 1/2⟩) (some ⟨0, 1/2⟩)).cmds
      ≠ [⟨100, 50⟩, ⟨300, 60⟩] ∧
    ¬ (∀ p ∈ parsePathSegments (createOrthogonalPath [⟨300, 10, 100, 100⟩]
        ⟨100, 50⟩ ⟨300, 60⟩ (some ⟨1, 1/2⟩) (some ⟨0, 1/2⟩)).cmds,
        ∀ q ∈ parsePathSegments (createOrthogonalPath [⟨300, 10, 100, 100⟩]
        ⟨100, 50⟩ ⟨300, 60⟩ (some ⟨1, 1/2⟩) (some ⟨0, 1/2⟩)).cmds, p.y = q.y) := by
  with_unfolding_all decide

/-- C2 amended: for the same configuration (dy = 10, below the 30-unit
alignment tolerance), the router takes the horizontal alignment-straightening
branch and returns the six-point polyline whose long middle segment is
horizontal at the averaged y-coordinate (50 + 60)/2 = 55, flanked by the two
20-unit stubs and two 5-unit vertical jogs — not a single straight
segment. -/
theorem aligned_route_jogged_polyline :
    parsePathSegments (createOrthogonalPath [⟨300, 10, 100, 100⟩]
        ⟨100, 50⟩ ⟨300, 60⟩ (some ⟨1, 1/2⟩) (some ⟨0, 1/2⟩)).cmds
      = [⟨100, 50⟩, ⟨120, 50⟩, ⟨120, 55⟩, ⟨280, 55⟩, ⟨280, 60⟩, ⟨300, 60⟩] := by
  with_unfolding_all decide

/-- Parsing a list of `L` commands returns its points. -/
theorem parse_map_line (l : List Point) :
    parsePathSegments (l.map PathCmd.line) = l := by
  induction l with
  | nil => rfl
  | cons p rest ih => simp [parsePathSegments, ih]

/-- Rebuilding a path from segments and parsing it back is the identity. -/
theorem parse_rebuildPath (l : List Point) :
    parsePathSegments (rebuildPath l) = l := by
  cases l with
  | nil => rfl
  | cons p rest => simp [rebuildPath, parsePathSegments, parse_map_line]

/-- C3: when dragging the exposed interior segment at index `i` captures an
adjustment, the capture stores only the perpendicular offset, and reapplying
the stored adjustment to the path recomputed with unchanged shape positions
(hence the identical automatic path) shifts exactly the two endpoints of
segment `i` by the stored offset. -/
theorem waypoint_capture_reapply_exact (path : List PathCmd) (i : ℕ) (wp : Point)
    (adj : Adjustment) (h : captureWaypointOffset path i wp = some adj) :
    (adj.offsetX = 0 ∨ adj.offsetY = 0) ∧
    (parsePathSegments (applyWaypointAdjustments [(i, adj)] path))[i]?
      = ((parsePathSegments path)[i]?).map
          (fun p => ⟨p.x + adj.offsetX, p.y + adj.offsetY⟩) ∧
    (parsePathSegments (applyWaypointAdjustments [(i, adj)] path))[i + 1]?
      = ((parsePathSegments path)[i + 1]?).map
          (fun p => ⟨p.x + adj.offsetX, p.y + adj.offsetY⟩) := by
  have hrw : applyWaypointAdjustments [(i, adj)] path
      = rebuildPath (applyOneAdjustment (parsePathSegments path) i adj) := rfl
  rw [hrw, parse_rebuildPath]
  rw [captureWaypointOffset] at h
  set segs := parsePathSegments path with hsegs
  clear hrw hsegs
  rw [classifySegmentOffset] at h
  cases hA : segs[i]? with
  | none => rw [hA] at h; exact absurd h (by simp)
  | some a =>
  cases hB : segs[i + 1]? with
  | none => rw [hA, hB] at h; exact absurd h (by simp)
  | some b =>
  rw [hA, hB] at h
  have h2 : (if |a.y - b.y| < 1 then some (Adjustment.mk 0 (wp.y - a.y))
      else if |a.x - b.x| < 1 then some (Adjustment.mk (wp.x - a.x) 0) else none)
      = some adj := h
  clear h
  have hlen : i + 1 < segs.length := by
    rcases List.getElem?_eq_some.mp hB with ⟨hl, _⟩
    exact hl
  have hguard : i < segs.length - 1 := by omega
  have hgetA : segs.getD i default = a := by
    rw [List.getD_eq_getElem?_getD, hA]; rfl
  have hgetB : segs.getD (i + 1) default = b := by
    rw [List.getD_eq_getElem?_getD, hB]; rfl
  by_cases hH : |a.y - b.y| < 1
  · rw [if_pos hH] at h2
    obtain rfl : adj = ⟨0, wp.y - a.y⟩ := (Option.some_inj.mp h2).symm
    refine ⟨Or.inl rfl, ?_, ?_⟩ <;>
    · rw [applyOneAdjustment, if_pos hguard]
      simp only [hgetA, hgetB, hH, true_and]
      by_cases hz : wp.y - a.y = 0
      · rw [if_neg (by simp [hz]), if_neg (by simp)]
        first
        | (rw [hA]; simp [hz])
        | (rw [hB]; simp [hz])
      · rw [if_pos (by simp [hz])]
        first
        | (rw [List.getElem?_set_ne (by omega),
               List.getElem?_set_eq_of_lt _ (by omega)]; simp)
        | (rw [List.getElem?_set_eq_of_lt _ (by simp; omega)]; simp)
  · rw [if_neg hH] at h2
    by_cases hV : |a.x - b.x| < 1
    · rw [if_pos hV] at h2
      obtain rfl : adj = ⟨wp.x - a.x, 0⟩ := (Option.some_inj.mp h2).symm
      refine ⟨Or.inr rfl, ?_, ?_⟩ <;>
      · rw [applyOneAdjustment, if_pos hguard]
        simp only [hgetA, hgetB, hH, false_and, if_false, hV, true_and]
        by_cases hz : wp.x - a.x = 0
        · rw [if_neg (by simp [hz])]
          first
          | (rw [hA]; simp [hz])
          | (rw [hB]; simp [hz])
        · rw [if_pos (by simp [hz])]
          first
          | (rw [List.getElem?_set_ne (by omega),
                 List.getElem?_set_eq_of_lt _ (by omega)]; simp)
          | (rw [List.getElem?_set_eq_of_lt _ (by simp; omega)]; simp)
    · rw [if_neg hV] at h2
      exact absurd h2 (by simp)

/-- C3 witness: a concrete capture/reapply round on a six-point orthogonal
path whose interior segment 2 is horizontal. -/
theorem waypoint_capture_reapply_exact_witness :
    captureWaypointOffset
        [PathCmd.move ⟨0, 0⟩, .line ⟨20, 0⟩, .line ⟨20, 30⟩, .line ⟨80, 30⟩,
         .line ⟨80, 60⟩, .line ⟨100, 60⟩] 2 ⟨50, 45⟩ = some ⟨0, 15⟩ ∧
    ((parsePathSegments (applyWaypointAdjustments [(2, ⟨0, 15⟩)]
        [PathCmd.move ⟨0, 0⟩, .line ⟨20, 0⟩, .line ⟨20, 30⟩, .line ⟨80, 30⟩,
         .line ⟨80, 60⟩, .line ⟨100, 60⟩]))[2]?
      = ((parsePathSegments
        [PathCmd.move ⟨0, 0⟩, .line ⟨20, 0⟩, .line ⟨20, 30⟩, .line ⟨80, 30⟩,
         .line ⟨80, 60⟩, .line ⟨100, 60⟩])[2]?).map
          (fun p => ⟨p.x + (0:ℚ), p.y + (15:ℚ)⟩)) := by
  have hcap : captureWaypointOffset
      [PathCmd.move ⟨0, 0⟩, .line ⟨20, 0⟩, .line ⟨20, 30⟩, .line ⟨80, 30⟩,
       .line ⟨80, 60⟩, .line ⟨100, 60⟩] 2 ⟨50, 45⟩ = some ⟨0, 15⟩ := by
    with_unfolding_all decide
  exact ⟨hcap, (waypoint_capture_reapply_exact _ 2 ⟨50, 45⟩ ⟨0, 15⟩ hcap).2.1⟩

/-- The alternative-scanning loop returns the first collision-free
candidate, or the default when none qualifies. -/
theorem firstCollisionFree_eq_find (obstacles : List Rect)
    (alts : List (List PathCmd)) (dflt : List PathCmd) :
    firstCollisionFree obstacles alts dflt
      = (alts.find? (fun alt => !pathHasCollisions obstacles alt)).getD dflt := by
  induction alts with
  | nil => rfl
  | cons a rest ih =>
      cases hc : pathHasCollisions obstacles a with
      | true =>
          rw [firstCollisionFree, if_pos hc, ih, List.find?_cons_of_neg]
          simp [hc]
      | false =>
          rw [firstCollisionFree, if_neg (by simp [hc]), List.find?_cons_of_pos]
          · rfl
          · simp [hc]

/-- C4: for every colliding default path the obstacle avoider examines a
fixed, deterministically ordered candidate list of at most five alternate
polylines and returns the first collision-free one, falling back to the
original default path when none qualifies.  The routine is a total
function, so it terminates without raising an error. -/
theorem routeAroundObstacles_first_clear (obstacles : List Rect)
    (start end_ : Point) (fromDir toDir : Dir) (defaultPath : List PathCmd)
    (h : pathHasCollisions obstacles defaultPath = true) :
    (routeAlternatives start end_ fromDir toDir).length ≤ 5 ∧
    routeAroundObstacles obstacles start end_ fromDir toDir defaultPath
      = ((routeAlternatives start end_ fromDir toDir).find?
          (fun alt => !pathHasCollisions obstacles alt)).getD defaultPath := by
  constructor
  · unfold routeAlternatives
    split_ifs <;> simp
  · rw [routeAroundObstacles, if_pos h, firstCollisionFree_eq_find]

/-- C4 witness: a straight default path through an obstacle at
(180,30,40,40); the first three alternatives still collide and the fourth
(the upward detour) is collision-free and returned. -/
theorem routeAroundObstacles_first_clear_witness :
    pathHasCollisions [⟨180, 30, 40, 40⟩]
        [PathCmd.move ⟨120, 50⟩, .line ⟨280, 50⟩] = true ∧
    routeAroundObstacles [⟨180, 30, 40, 40⟩] ⟨120, 50⟩ ⟨280, 50⟩ .right .left
        [PathCmd.move ⟨120, 50⟩, .line ⟨280, 50⟩]
      = ((routeAlternatives ⟨120, 50⟩ ⟨280, 50⟩ .right .left).find?
          (fun alt => !pathHasCollisions [⟨180, 30, 40, 40⟩] alt)).getD
            [PathCmd.move ⟨120, 50⟩, .line ⟨280, 50⟩] := by
  have hcol : pathHasCollisions [⟨180, 30, 40, 40⟩]
      [PathCmd.move ⟨120, 50⟩, .line ⟨280, 50⟩] = true := by
    with_unfolding_all decide
  exact ⟨hcol,
    (routeAroundObstacles_first_clear [⟨180, 30, 40, 40⟩] ⟨120, 50⟩ ⟨280, 50⟩
      .right .left [PathCmd.move ⟨120, 50⟩, .line ⟨280, 50⟩] hcol).2⟩

/-- A segment contains its first endpoint. -/
theorem onSegment_self_left (a b : Point) : onSegment a a b := by
  refine ⟨by ring, min_le_left _ _, le_max_left _ _, min_le_left _ _, le_max_left _ _⟩

/-- C5 counterexample: for the triangle shape with bounding box (0,0,70,70)
(a polygon kind), the resolver returns the bounding-box left-side midpoint
(0,35), which does NOT lie on the triangle's boundary — polygon shapes are
not resolved against their actual vertices. -/
theorem resolve_triangle_off_boundary :
    getFixedConnectionPoint ⟨0, 0, 70, 70⟩ (some (directionToPoint .left)) = ⟨0, 35⟩ ∧
    ¬ onPolygonBoundary (trianglePoints ⟨0, 0, 70, 70⟩) ⟨0, 35⟩ := by
  constructor
  · with_unfolding_all decide
  · with_unfolding_all decide

/-- C5 amended: the resolver always returns the bounding-box side midpoint at
fraction 0.5.  This point lies on the shape's boundary for rectangles, for
ellipses inscribed in the bounding box, and for diamond polygons (whose
vertices are the side midpoints) — but resolution never consults polygon
vertices, so for other polygons it can fall off the boundary (see the
triangle counterexample). -/
theorem resolve_midpoint_bbox_boundary (bounds : Rect) (d : Dir)
    (hw : 0 ≤ bounds.width) (hh : 0 ≤ bounds.height) :
    getFixedConnectionPoint bounds (some (directionToPoint d)) = sideMidpoint bounds d ∧
    onRectBoundary bounds (sideMidpoint bounds d) ∧
    onEllipseBoundary bounds (sideMidpoint bounds d) ∧
    onPolygonBoundary (diamondPoints bounds) (sideMidpoint bounds d) := by
  obtain ⟨l, t, w, h⟩ := bounds
  have hw2 : 0 ≤ w := hw
  have hh2 : 0 ≤ h := hh
  cases d with
  | top =>
      refine ⟨?_, ?_, ?_, ?_⟩
      · simp only [getFixedConnectionPoint, directionToPoint, sideMidpoint, Point.mk.injEq]
        constructor <;> ring
      · refine Or.inr ⟨Or.inl rfl, ?_, ?_⟩ <;> (simp only [sideMidpoint]; linarith)
      · simp only [onEllipseBoundary, sideMidpoint]
        ring
      · exact ⟨(⟨l + w / 2, t⟩, ⟨l + w, t + h / 2⟩),
          by simp [polygonEdges, diamondPoints], onSegment_self_left _ _⟩
  | right =>
      refine ⟨?_, ?_, ?_, ?_⟩
      · simp only [getFixedConnectionPoint, directionToPoint, sideMidpoint, Point.mk.injEq]
        constructor <;> ring
      · refine Or.inl ⟨Or.inr rfl, ?_, ?_⟩ <;> (simp only [sideMidpoint]; linarith)
      · simp only [onEllipseBoundary, sideMidpoint]
        ring
      · exact ⟨(⟨l + w, t + h / 2⟩, ⟨l + w / 2, t + h⟩),
          by simp [polygonEdges, diamondPoints], onSegment_self_left _ _⟩
  | bottom =>
      refine ⟨?_, ?_, ?_, ?_⟩
      · simp only [getFixedConnectionPoint, directionToPoint, sideMidpoint, Point.mk.injEq]
        constructor <;> ring
      · refine Or.inr ⟨Or.inr rfl, ?_, ?_⟩ <;> (simp only [sideMidpoint]; linarith)
      · simp only [onEllipseBoundary, sideMidpoint]
        ring
      · exact ⟨(⟨l + w / 2, t + h⟩, ⟨l, t + h / 2⟩),
          by simp [polygonEdges, diamondPoints], onSegment_self_left _ _⟩
  | left =>
      refine ⟨?_, ?_, ?_, ?_⟩
      · simp only [getFixedConnectionPoint, directionToPoint, sideMidpoint, Point.mk.injEq]
        constructor <;> ring
      · refine Or.inl ⟨Or.inl rfl, ?_, ?_⟩ <;> (simp only [sideMidpoint]; linarith)
      · simp only [onEllipseBoundary, sideMidpoint]
        ring
      · exact ⟨(⟨l, t + h / 2⟩, ⟨l + w / 2, t⟩),
          by simp [polygonEdges, diamondPoints], onSegment_self_left _ _⟩

/-- C5 witness: the amended statement evaluated at the bounding box
(0,0,100,60), right side. -/
theorem resolve_midpoint_bbox_boundary_witness :
    getFixedConnectionPoint ⟨0, 0, 100, 60⟩ (some (directionToPoint .right))
        = sideMidpoint ⟨0, 0, 100, 60⟩ .right ∧
    onRectBoundary ⟨0, 0, 100, 60⟩ (sideMidpoint ⟨0, 0, 100, 60⟩ .right) ∧
    onEllipseBoundary ⟨0, 0, 100, 60⟩ (sideMidpoint ⟨0, 0, 100, 60⟩ .right) ∧
    onPolygonBoundary (diamondPoints ⟨0, 0, 100, 60⟩)
        (sideMidpoint ⟨0, 0, 100, 60⟩ .right) :=
  resolve_midpoint_bbox_boundary ⟨0, 0, 100, 60⟩ .right (by norm_num) (by norm_num)

/-- C7: for a pair of plain vertical directions (top/bottom), when the
x-misalignment of the two resolved connection points is strictly below the
30-unit tolerance, `snapShapesToAlign` translates only `toShape`, by exactly
that misalignment, making the two points numerically identical on the
x-axis; otherwise both shapes are unchanged.  Symmetrically for plain
horizontal directions (left/right) on the y-axis. -/
theorem snap_align_within_tolerance (f t : ShapeV) (fd td : ConnDir) :
    (((fd = .top ∨ fd = .bottom) ∧ (td = .top ∨ td = .bottom)) →
      ((|(snapConnPoint f fd).x - (snapConnPoint t td).x| < 30 →
          (snapShapesToAlign f t fd td).1 = f ∧
          (snapShapesToAlign f t fd td).2
            = { t with left := t.left + ((snapConnPoint f fd).x - (snapConnPoint t td).x) } ∧
          (snapConnPoint (snapShapesToAlign f t fd td).2 td).x = (snapConnPoint f fd).x) ∧
        (¬ |(snapConnPoint f fd).x - (snapConnPoint t td).x| < 30 →
          snapShapesToAlign f t fd td = (f, t)))) ∧
    (((fd = .left ∨ fd = .right) ∧ (td = .left ∨ td = .right)) →
      ((|(snapConnPoint f fd).y - (snapConnPoint t td).y| < 30 →
          (snapShapesToAlign f t fd td).1 = f ∧
          (snapShapesToAlign f t fd td).2
            = { t with top := t.top + ((snapConnPoint f fd).y - (snapConnPoint t td).y) } ∧
          (snapConnPoint (snapShapesToAlign f t fd td).2 td).y = (snapConnPoint f fd).y) ∧
        (¬ |(snapConnPoint f fd).y - (snapConnPoint t td).y| < 30 →
          snapShapesToAlign f t fd td = (f, t)))) := by
  constructor
  · rintro ⟨hf | hf, ht | ht⟩ <;> subst hf <;> subst ht <;>
      constructor <;> intro htol <;>
      simp only [snapShapesToAlign, if_pos, if_neg, htol, reduceCtorEq, or_self,
        and_true, and_self, true_and, if_true, if_false, or_true, true_or,
        reduceIte] <;>
      first
      | rfl
      | (simp only [snapConnPoint]; ring)
  · rintro ⟨hf | hf, ht | ht⟩ <;> subst hf <;> subst ht <;>
      constructor <;> intro htol <;>
      simp only [snapShapesToAlign, if_pos, if_neg, htol, reduceCtorEq, or_self,
        and_true, and_self, true_and, if_true, if_false, or_true, true_or,
        and_false, false_and, or_false, false_or, reduceIte] <;>
      first
      | rfl
      | (simp only [snapConnPoint]; ring)

/-- C7 witness: shapes (0,0,100,100) and (300,25,100,100) connected
right-to-left are misaligned by 25 < 30; after the snap the two resolved
points share the same y-coordinate. -/
theorem snap_align_within_tolerance_witness :
    (snapConnPoint (snapShapesToAlign ⟨"a", 0, 0, 100, 100, [], []⟩
        ⟨"b", 300, 25, 100, 100, [], []⟩ .right .left).2 .left).y
      = (snapConnPoint ⟨"a", 0, 0, 100, 100, [], []⟩ .right).y := by
  have h := (snap_align_within_tolerance ⟨"a", 0, 0, 100, 100, [], []⟩
      ⟨"b", 300, 25, 100, 100, [], []⟩ .right .left).2
      ⟨Or.inr rfl, Or.inl rfl⟩
  exact (h.1 (by with_unfolding_all decide)).2.2

/-- C9: recomputing a connector after endpoint-shape movement never touches
the stored `fromPoint`/`toPoint` (the dynamic re-selection call is disabled
in the source); every stored field except the two path fields is
unchanged. -/
theorem update_preserves_fixed_points (obstacles : List Rect)
    (fromBounds toBounds : Rect) (c : Connector) :
    (c.update obstacles fromBounds toBounds).fromPoint = c.fromPoint ∧
    (c.update obstacles fromBounds toBounds).toPoint = c.toPoint ∧
    { c.update obstacles fromBounds toBounds with
        originalPath := c.originalPath, pathCmds := c.pathCmds } = c :=
  ⟨rfl, rfl, rfl⟩

/-- Membership after a `Map.set` on the registry comes from the old registry
or is the new connector. -/
theorem mem_mapSetConnector (l : List Connector) (nc c : Connector)
    (h : c ∈ mapSetConnector l nc) : c ∈ l ∨ c = nc := by
  unfold mapSetConnector at h
  split_ifs at h
  · rcases List.mem_map.mp h with ⟨x, hx, hxe⟩
    by_cases hxi : x.id = nc.id
    · right; rw [← hxe]; simp [hxi]
    · left; rw [← hxe]; simp [hxi]; exact hx
  · rcases List.mem_append.mp h with h1 | h1
    · exact Or.inl h1
    · exact Or.inr (by simpa using h1)

/-- C8: `createConnector` with a missing or self-referential endpoint creates
nothing: it returns `null` (a total function, so no exception), and the
registry and both shapes' connector-reference lists are unchanged.
Consequently the registry invariant `fromShapeId ≠ toShapeId` is preserved
by every call. -/
theorem createConnector_guard_and_invariant (obstacles : List Rect)
    (mgr : ConnectorManager) (fromShape toShape : Option ShapeV)
    (o : ConnectorOptions) (freshId : String) :
    ((fromShape = none ∨ toShape = none ∨
        (∃ f t, fromShape = some f ∧ toShape = some t ∧ f.id = t.id)) →
      createConnector obstacles mgr fromShape toShape o freshId
        = (none, mgr, fromShape, toShape)) ∧
    ((∀ c ∈ mgr.connectors, c.fromShapeId ≠ c.toShapeId) →
      ∀ c ∈ (createConnector obstacles mgr fromShape toShape o freshId).2.1.connectors,
        c.fromShapeId ≠ c.toShapeId) := by
  cases fromShape with
  | none => exact ⟨fun _ => rfl, fun hinv => hinv⟩
  | some f =>
  cases toShape with
  | none => exact ⟨fun _ => rfl, fun hinv => hinv⟩
  | some t =>
  constructor
  · rintro (h | h | ⟨f2, t2, hf, ht, heq⟩)
    · exact absurd h (by simp)
    · exact absurd h (by simp)
    · obtain rfl : f2 = f := by injection hf.symm
      obtain rfl : t2 = t := by injection ht.symm
      rw [createConnector, if_pos heq]
  · intro hinv c hc
    by_cases hid : f.id = t.id
    · rw [createConnector, if_pos hid] at hc
      exact hinv c hc
    · rw [createConnector, if_neg hid] at hc
      rcases mem_mapSetConnector _ _ _ hc with hold | hnew
      · exact hinv c hold
      · rw [hnew]
        exact hid

/-- C8 witness: a missing endpoint and a self-referential endpoint both
leave an empty registry empty and return `null`; the invariant holds
afterwards. -/
theorem createConnector_guard_and_invariant_witness :
    createConnector [] ⟨[]⟩ none (some ⟨"b", 0, 0, 10, 10, [], []⟩) {} "c1"
      = (none, ⟨[]⟩, none, some ⟨"b", 0, 0, 10, 10, [], []⟩) ∧
    createConnector [] ⟨[]⟩ (some ⟨"b", 0, 0, 10, 10, [], []⟩)
        (some ⟨"b", 0, 0, 10, 10, [], []⟩) {} "c1"
      = (none, ⟨[]⟩, some ⟨"b", 0, 0, 10, 10, [], []⟩, some ⟨"b", 0, 0, 10, 10, [], []⟩) ∧
    (∀ c ∈ (createConnector [] ⟨[]⟩ none (some ⟨"b", 0, 0, 10, 10, [], []⟩) {}
        "c1").2.1.connectors, c.fromShapeId ≠ c.toShapeId) :=
  ⟨(createConnector_guard_and_invariant [] ⟨[]⟩ none
      (some ⟨"b", 0, 0, 10, 10, [], []⟩) {} "c1").1 (Or.inl rfl),
   (createConnector_guard_and_invariant [] ⟨[]⟩ (some ⟨"b", 0, 0, 10, 10, [], []⟩)
      (some ⟨"b", 0, 0, 10, 10, [], []⟩) {} "c1").1
      (Or.inr (Or.inr ⟨_, _, rfl, rfl, rfl⟩)),
   (createConnector_guard_and_invariant [] ⟨[]⟩ none
      (some ⟨"b", 0, 0, 10, 10, [], []⟩) {} "c1").2 (by simp)⟩

/-- A successful `shapeMap` lookup returns a shape carrying the looked-up
id. -/
theorem shapeMapGet_eq_id (shapes : List ShapeV) (id0 : String) (s : ShapeV)
    (h : shapeMapGet shapes id0 = some s) : s.id = id0 := by
  have aux : ∀ (l : List ShapeV) (acc : Option ShapeV),
      (∀ a, acc = some a → a.id = id0) →
      l.foldl (fun acc s2 => if s2.id ≠ "" ∧ s2.id = id0 then some s2 else acc) acc
        = some s → s.id = id0 := by
    intro l
    induction l with
    | nil => intro acc hacc h2; exact hacc s h2
    | cons x rest ih =>
        intro acc hacc h2
        rw [List.foldl_cons] at h2
        refine ih _ ?_ h2
        intro a ha
        by_cases hx : x.id ≠ "" ∧ x.id = id0
        · rw [if_pos hx] at ha
          obtain rfl : x = a := by injection ha
          exact hx.2
        · rw [if_neg hx] at ha
          exact hacc a ha
  exact aux shapes none (by simp) h

/-- C6 amended: serializing a registered connector and deserializing the
record (both endpoint shapes resolvable and distinct) reconstructs a
connector with the same endpoint shape ids, fixed connection points,
routing style, stroke color and width, and waypoint adjustments.  The `id`
is regenerated by the constructor and the label is not forwarded by
`fromJSON`, so neither round-trips (see the counterexample). -/
theorem roundtrip_preserves_core_fields (obstacles : List Rect)
    (mgr : ConnectorManager) (c : Connector) (shapes : List ShapeV)
    (supply : ℕ → String) (f t : ShapeV)
    (hf : shapeMapGet shapes c.fromShapeId = some f)
    (ht : shapeMapGet shapes c.toShapeId = some t)
    (hne : c.fromShapeId ≠ c.toShapeId)
    (hfp : c.fromPoint.isSome) (htp : c.toPoint.isSome)
    (hsc : c.strokeColor ≠ "") (hsw : c.strokeWidth ≠ 0) :
    ∃ c2, (fromJSON obstacles mgr [c.toJSON] shapes supply).connectors = [c2] ∧
      c2.fromShapeId = c.fromShapeId ∧ c2.toShapeId = c.toShapeId ∧
      c2.fromPoint = c.fromPoint ∧ c2.toPoint = c.toPoint ∧
      c2.routingStyle = c.routingStyle ∧ c2.strokeColor = c.strokeColor ∧
      c2.strokeWidth = c.strokeWidth ∧
      c2.waypointAdjustments = c.waypointAdjustments := by
  have hfid : f.id = c.fromShapeId := shapeMapGet_eq_id _ _ _ hf
  have htid : t.id = c.toShapeId := shapeMapGet_eq_id _ _ _ ht
  have hne2 : ¬ f.id = t.id := by rw [hfid, htid]; exact hne
  obtain ⟨fp, hfpe⟩ := Option.isSome_iff_exists.mp hfp
  obtain ⟨tp, htpe⟩ := Option.isSome_iff_exists.mp htp
  have hrecf : (Connector.toJSON c).fromShapeId = c.fromShapeId := rfl
  have hrect : (Connector.toJSON c).toShapeId = c.toShapeId := rfl
  simp only [fromJSON, clearAll, fromJSONLoop, hrecf, hrect, hf, ht,
    createConnector, createdConnector, optionsFromRecord, Connector.toJSON, hfpe, htpe,
    Option.isNone_some, Bool.false_eq_true, if_false, if_neg hne2,
    mapSetConnector, List.any_nil, List.nil_append, reduceIte]
  refine ⟨_, rfl, ?_, ?_, ?_, ?_, ?_, ?_, ?_, ?_⟩ <;>
    simp only [mkConnector, jsOrString, jsOrQ, Option.getD_some, hfid, htid] <;>
    first
    | rfl
    | rw [if_neg hsc]
    | rw [if_neg hsw]

/-- C6 counterexample: round-tripping `sampleConnector` (id `c1`, label
`flow`) through `toJSON`/`fromJSON` yields a connector whose label is the
empty string and whose id is the freshly generated one — id and label are
not round-tripped. -/
theorem roundtrip_drops_label :
    ((fromJSON [] ⟨[]⟩ [sampleConnector.toJSON] sampleShapes
        (fun _ => "fresh")).connectors.map Connector.text = [""] ∧
     (fromJSON [] ⟨[]⟩ [sampleConnector.toJSON] sampleShapes
        (fun _ => "fresh")).connectors.map Connector.id = ["fresh"]) ∧
    sampleConnector.text = "flow" ∧ sampleConnector.id = "c1" := by
  refine ⟨⟨?_, ?_⟩, rfl, rfl⟩ <;> with_unfolding_all decide

/-- C6 witness: the amended round trip evaluated on `sampleConnector` and
`sampleShapes`. -/
theorem roundtrip_preserves_core_fields_witness :
    ∃ c2, (fromJSON [] ⟨[]⟩ [sampleConnector.toJSON] sampleShapes
        (fun _ => "fresh")).connectors = [c2] ∧
      c2.fromShapeId = sampleConnector.fromShapeId ∧
      c2.toShapeId = sampleConnector.toShapeId ∧
      c2.fromPoint = sampleConnector.fromPoint ∧
      c2.toPoint = sampleConnector.toPoint ∧
      c2.routingStyle = sampleConnector.routingStyle ∧
      c2.strokeColor = sampleConnector.strokeColor ∧
      c2.strokeWidth = sampleConnector.strokeWidth ∧
      c2.waypointAdjustments = sampleConnector.waypointAdjustments :=
  roundtrip_preserves_core_fields [] ⟨[]⟩ sampleConnector sampleShapes
    (fun _ => "fresh") ⟨"a", 0, 0, 100, 100, [], []⟩ ⟨"b", 300, 0, 100, 100, [], []⟩
    (by with_unfolding_all decide) (by with_unfolding_all decide)
    (by with_unfolding_all decide) (by with_unfolding_all decide)
    (by with_unfolding_all decide) (by with_unfolding_all decide)
    (by with_unfolding_all decide)

/-- The freshly constructed connector carries the fresh id. -/
theorem createdConnector_id (obstacles : List Rect) (f t : ShapeV)
    (o : ConnectorOptions) (freshId : String) :
    (createdConnector obstacles f t o freshId).id = freshId := rfl

/-- `createConnector` on two resolved, distinct shapes. -/
theorem createConnector_some_some (obstacles : List Rect) (mgr : ConnectorManager)
    (f t : ShapeV) (o : ConnectorOptions) (freshId : String) (hid : ¬ f.id = t.id) :
    createConnector obstacles mgr (some f) (some t) o freshId
      = (some (createdConnector obstacles f t o freshId),
         ⟨mapSetConnector mgr.connectors (createdConnector obstacles f t o freshId)⟩,
         some { f with outgoingConnectors :=
            f.outgoingConnectors ++ [(createdConnector obstacles f t o freshId).id] },
         some { t with incomingConnectors :=
            t.incomingConnectors ++ [(createdConnector obstacles f t o freshId).id] }) := by
  rw [createConnector, if_neg hid]

/-- `createConnector` on a self-referential resolved endpoint pair. -/
theorem createConnector_same_shape (obstacles : List Rect) (mgr : ConnectorManager)
    (f t : ShapeV) (o : ConnectorOptions) (freshId : String) (hid : f.id = t.id) :
    createConnector obstacles mgr (some f) (some t) o freshId
      = (none, mgr, some f, some t) := by
  rw [createConnector, if_pos hid]

/-- The registry after the deserialization loop is the starting registry
followed by what the loop builds from an empty registry, provided every
starting entry carries an id issued before index `k` and the id supply is
injective. -/
theorem fromJSONLoop_connectors_append (obstacles : List Rect) (shapes : List ShapeV)
    (supply : ℕ → String) (hsup : ∀ i j, supply i = supply j → i = j)
    (records : List ConnRecord) :
    ∀ (k : ℕ) (mgr : ConnectorManager),
      (∀ c ∈ mgr.connectors, ∃ j, j < k ∧ c.id = supply j) →
      (fromJSONLoop obstacles shapes supply k records mgr).connectors
        = mgr.connectors ++ (fromJSONLoop obstacles shapes supply k records ⟨[]⟩).connectors := by
  induction records with
  | nil => intro k mgr _; simp [fromJSONLoop]
  | cons r rest ih =>
      intro k mgr hids
      rw [fromJSONLoop, fromJSONLoop]
      cases hlf : shapeMapGet shapes r.fromShapeId with
      | none => exact ih k mgr hids
      | some f =>
      cases hlt : shapeMapGet shapes r.toShapeId with
      | none => exact ih k mgr hids
      | some t =>
      simp only []
      by_cases hid : f.id = t.id
      · rw [createConnector_same_shape _ _ _ _ _ _ hid,
            createConnector_same_shape _ _ _ _ _ _ hid]
        exact ih k mgr hids
      · rw [createConnector_some_some _ _ _ _ _ _ hid,
            createConnector_some_some _ _ _ _ _ _ hid]
        simp only []
        have hfresh : mapSetConnector mgr.connectors
            (createdConnector obstacles f t (optionsFromRecord r) (supply k))
            = mgr.connectors ++ [createdConnector obstacles f t (optionsFromRecord r) (supply k)] := by
          rw [mapSetConnector, if_neg]
          simp only [List.any_eq_true, not_exists, not_and]
          rintro x hx
          obtain ⟨j, hj, hje⟩ := hids x hx
          rw [createdConnector_id, hje]
          simp only [decide_eq_true_eq]
          intro heq
          exact absurd (hsup j k heq) (by omega)
        have hempty : mapSetConnector []
            (createdConnector obstacles f t (optionsFromRecord r) (supply k))
            = [createdConnector obstacles f t (optionsFromRecord r) (supply k)] := by
          rw [mapSetConnector, if_neg (by simp)]
          rfl
        rw [hfresh, hempty]
        rw [ih (k + 1)
            ⟨mgr.connectors ++ [createdConnector obstacles f t (optionsFromRecord r) (supply k)]⟩
            ?side1,
          ih (k + 1) ⟨[createdConnector obstacles f t (optionsFromRecord r) (supply k)]⟩ ?side2]
        · simp
        case side1 =>
          rintro c hc
          rcases List.mem_append.mp hc with hc1 | hc1
          · obtain ⟨j, hj, hje⟩ := hids c hc1
            exact ⟨j, by omega, hje⟩
          · obtain rfl : c = createdConnector obstacles f t (optionsFromRecord r) (supply k) := by
              simpa using hc1
            exact ⟨k, by omega, rfl⟩
        case side2 =>
          rintro c hc
          obtain rfl : c = createdConnector obstacles f t (optionsFromRecord r) (supply k) := by
            simpa using hc
          exact ⟨k, by omega, rfl⟩

/-- C10: deserialization first clears the registry, so loading replaces
rather than merges: the outcome is independent of the registry before the
call, and (for well-formed records, with fresh generated ids) the final
registry holds exactly one connector per record whose two endpoint shapes
resolve in the supplied shape list, in record order. -/
theorem fromJSON_replaces_registry (obstacles : List Rect) (mgr : ConnectorManager)
    (records : List ConnRecord) (shapes : List ShapeV) (supply : ℕ → String)
    (hsup : ∀ i j, supply i = supply j → i = j)
    (hrec : ∀ r ∈ records, r.fromShapeId ≠ r.toShapeId) :
    fromJSON obstacles mgr records shapes supply
      = fromJSON obstacles ⟨[]⟩ records shapes supply ∧
    (fromJSON obstacles mgr records shapes supply).connectors
      = expectedDeserialized obstacles shapes supply 0 records := by
  refine ⟨rfl, ?_⟩
  rw [fromJSON, clearAll]
  have main : ∀ (rs : List ConnRecord), (∀ r ∈ rs, r.fromShapeId ≠ r.toShapeId) →
      ∀ k, (fromJSONLoop obstacles shapes supply k rs ⟨[]⟩).connectors
        = expectedDeserialized obstacles shapes supply k rs := by
    intro rs
    induction rs with
    | nil => intro _ _; rfl
    | cons r rest ih =>
        intro hr k
        rw [fromJSONLoop, expectedDeserialized]
        cases hlf : shapeMapGet shapes r.fromShapeId with
        | none => exact ih (fun x hx => hr x (List.mem_cons_of_mem _ hx)) k
        | some f =>
        cases hlt : shapeMapGet shapes r.toShapeId with
        | none => exact ih (fun x hx => hr x (List.mem_cons_of_mem _ hx)) k
        | some t =>
        simp only []
        have hid : ¬ f.id = t.id := by
          rw [shapeMapGet_eq_id _ _ _ hlf, shapeMapGet_eq_id _ _ _ hlt]
          exact hr r (List.mem_cons_self _ _)
        rw [createConnector_some_some _ _ _ _ _ _ hid]
        simp only []
        have hempty : mapSetConnector []
            (createdConnector obstacles f t (optionsFromRecord r) (supply k))
            = [createdConnector obstacles f t (optionsFromRecord r) (supply k)] := by
          rw [mapSetConnector, if_neg (by simp)]
          rfl
        rw [hempty,
          fromJSONLoop_connectors_append obstacles shapes supply hsup rest (k + 1)
            ⟨[createdConnector obstacles f t (optionsFromRecord r) (supply k)]⟩ ?ids,
          ih (fun x hx => hr x (List.mem_cons_of_mem _ hx)) (k + 1)]
        · rfl
        case ids =>
          rintro c hc
          obtain rfl : c = createdConnector obstacles f t (optionsFromRecord r) (supply k) := by
            simpa using hc
          exact ⟨k, by omega, rfl⟩
  exact main records hrec 0

/-- C10 witness: loading the serialized `sampleConnector` into a registry
that already holds a connector replaces it: the result equals the load into
an empty registry and matches the per-record characterization, with an
injective fresh-id supply. -/
theorem fromJSON_replaces_registry_witness :
    fromJSON [] ⟨[sampleConnector]⟩ [sampleConnector.toJSON] sampleShapes
        (fun n => String.mk (List.replicate n 'a'))
      = fromJSON [] ⟨[]⟩ [sampleConnector.toJSON] sampleShapes
        (fun n => String.mk (List.replicate n 'a')) ∧
    (fromJSON [] ⟨[sampleConnector]⟩ [sampleConnector.toJSON] sampleShapes
        (fun n => String.mk (List.replicate n 'a'))).connectors
      = expectedDeserialized [] sampleShapes
          (fun n => String.mk (List.replicate n 'a')) 0 [sampleConnector.toJSON] := by
  refine fromJSON_replaces_registry [] ⟨[sampleConnector]⟩ [sampleConnector.toJSON]
    sampleShapes (fun n => String.mk (List.replicate n 'a')) ?_ ?_
  · intro i j h
    have h2 : List.replicate i 'a' = List.replicate j 'a' := congrArg String.data h
    simpa using congrArg List.length h2
  · intro r hr
    rw [List.mem_singleton] at hr
    subst hr
    with_unfolding_all decide

end SmartChart
